import Mathlib

/-!
Shallow embedding of the cell/population configuration model of the
`vbragin_neuron` tutorial scripts (`tutorial_3_solution.py`,
`tutorial_4a.py`, `tutorial_4b.py`).

The scripts configure an external compartmental-simulation engine
(`neuron.h`): they allocate two sections per cell, connect them, set
geometry and membrane biophysics, attach stimuli, synapses and
connections, and collect recorded traces and spike events.  The
embedding below translates the repository's own code (the `HHCell` and
`Pop` classes of `tutorial_4b.py`, whose `HHCell` is a superset of the
other two scripts' variants) into pure Lean definitions:

* engine objects (`h.Section`, `h.ExpSyn`, `h.IClamp`, `h.NetCon`,
  `h.Vector`) become records holding exactly the attributes the
  scripts read or write;
* Python floating-point literals are modelled exactly as rationals
  (every literal in the source is a short decimal, so this is lossless
  at the level of the assignments the scripts perform);
* Python list indexing `xs[i]` (used by `connect2pre`) is modelled by
  `pyGet`, including negative-index semantics and `IndexError`;
* `np.random.uniform(lo, hi, n)` is modelled against an abstract
  unit-uniform stream `u : ℕ → ℚ` produced by the seeded global
  generator, consumed left to right: draw `j` of a call starting at
  global counter `k` is `lo + (hi - lo) * u (k + j)`.  NumPy
  documents the samples as lying in `[lo, hi)` and the stream as a
  deterministic function of the seed; both facts enter theorems as
  hypotheses on `u`, never as axioms;
* the engine's run step is opaque; its observable effects on this
  code's state (samples appended to recording vectors, spike
  time/id pairs appended to a population's shared buffers) are
  modelled as functions taking the engine-produced events as input.
-/

namespace VbraginNeuron

/-- Python exceptions observable from the scripts. -/
inductive PyErr where
  | indexError
  | attributeError
  deriving DecidableEq

/-- Python list indexing `xs[i]`: a negative index counts from the end;
an index out of range (`i ≥ len` or `i < -len`) raises `IndexError`,
modelled as `none`. -/
def pyGet {α : Type} (xs : List α) (i : ℤ) : Option α :=
  let j : ℤ := if i < 0 then i + xs.length else i
  if 0 ≤ j then xs.get? j.toNat else none

/-- An engine section (`h.Section`).  Fields are the attributes the
scripts assign or read.  `hasHH` / `hasPas` record which mechanisms
`insert` has installed; the associated parameters are meaningful only
when the flag is set (the engine raises on access otherwise, which no
script does).  Allocation defaults are the engine's documented section
defaults. -/
structure NrnSection where
  name : String
  L : ℚ
  diam : ℚ
  nseg : ℕ
  Ra : ℚ
  cm : ℚ
  hasHH : Bool
  gnabar_hh : ℚ
  gkbar_hh : ℚ
  gl_hh : ℚ
  el_hh : ℚ
  hasPas : Bool
  g_pas : ℚ
  e_pas : ℚ
  deriving DecidableEq

/-- Allocation `h.Section(name=nm)`: a fresh section with the engine's defaults
(L = 100, diam = 500, nseg = 1, Ra = 35.4, cm = 1, no mechanisms). -/
def newSection (nm : String) : NrnSection where
  name := nm
  L := 100
  diam := 500
  nseg := 1
  Ra := 35.4
  cm := 1
  hasHH := false
  gnabar_hh := 0
  gkbar_hh := 0
  gl_hh := 0
  el_hh := 0
  hasPas := false
  g_pas := 0
  e_pas := 0

/-- Method `sec.insert(mech)`: installs a mechanism with the engine's default
parameters (hh: gnabar 0.12, gkbar 0.036, gl 0.0003, el −54.3;
pas: g 0.001, e −70); other names are not used by the scripts. -/
def NrnSection.insert (s : NrnSection) (mech : String) : NrnSection :=
  if mech = "hh" then
    { s with hasHH := true, gnabar_hh := 0.12, gkbar_hh := 0.036,
             gl_hh := 0.0003, el_hh := -54.3 }
  else if mech = "pas" then
    { s with hasPas := true, g_pas := 0.001, e_pas := -70 }
  else s

/-- A topology attachment event: `child.connect(parent(pos))` attaches
the child's 0-end (the engine default) at position `pos` of the named
parent section. -/
structure TopConn where
  childPos : ℚ
  parentName : String
  parentPos : ℚ
  deriving DecidableEq

/-- An `h.ExpSyn` point process as configured by `create_synapse`:
location on the dendrite, decay constant, reversal potential. -/
structure Synapse where
  loc : ℚ
  tau : ℚ
  e : ℚ
  deriving DecidableEq

/-- An `h.IClamp` point process as configured by `add_current_stim`:
location on the dendrite, amplitude, onset delay, duration. -/
structure IClamp where
  loc : ℚ
  amp : ℚ
  delay : ℚ
  dur : ℚ
  deriving DecidableEq

/-- An `h.NetCon` created by `connect2pre`: watches the source cell's
soma-midpoint voltage and targets a synapse of the owning cell
(`target` holds the synapse `connect2pre` resolved from `synlist`). -/
structure NetCon where
  srcSec : String
  srcPos : ℚ
  target : Option Synapse
  delay : ℚ
  weight : ℚ
  deriving DecidableEq

/-- The `HHCell` state (`tutorial_4b.py`).  Recording vectors and the
position do not exist as attributes until `set_recording` /
`set_position` run; `Option` models the missing attribute. -/
structure HHCell where
  synlist : List Synapse
  nclist : List NetCon
  soma : NrnSection
  dend : NrnSection
  dendConnects : List TopConn
  stim : Option IClamp
  soma_v_vec : Option (List ℚ)
  dend_v_vec : Option (List ℚ)
  t_vec : Option (List ℚ)
  x : Option ℚ
  y : Option ℚ
  deriving DecidableEq

/-- Method `create_sections`: allocate the two named sections. -/
def HHCell.create_sections (c : HHCell) : HHCell :=
  { c with soma := newSection "soma", dend := newSection "dend" }

/-- Method `build_topology`: `self.dend.connect(self.soma(1))` — attach the
dendrite's 0-end to the soma at position 1; the event is logged so that
the number of attachments performed over a cell's lifetime is part of
the state. -/
def HHCell.build_topology (c : HHCell) : HHCell :=
  { c with dendConnects := c.dendConnects ++ [⟨0, "soma", 1⟩] }

/-- Method `define_geometry`: fixed literal geometry (`tutorial_4b.py` uses
`dend.nseg = 9`). -/
def HHCell.define_geometry (c : HHCell) : HHCell :=
  { c with
    soma := { c.soma with L := 12.6157, diam := 12.6157 }
    dend := { c.dend with L := 200, diam := 1, nseg := 9 } }

/-- Method `define_biophysics`: Ra = 100 and cm = 1 on both sections, then the
active hh set on the soma and the passive set on the dendrite, with the
literal parameter values of the source. -/
def HHCell.define_biophysics (c : HHCell) : HHCell :=
  let soma1 := { c.soma with Ra := 100, cm := 1 }
  let dend1 := { c.dend with Ra := 100, cm := 1 }
  let soma2 := soma1.insert "hh"
  let soma3 := { soma2 with gnabar_hh := 0.12, gkbar_hh := 0.036,
                            gl_hh := 0.0003, el_hh := -54.3 }
  let dend2 := dend1.insert "pas"
  let dend3 := { dend2 with g_pas := 0.001, e_pas := -65 }
  { c with soma := soma3, dend := dend3 }

/-- Constructor `HHCell.__init__`: empty bookkeeping lists, then the four build
steps in source order.  The section fields before `create_sections`
stand for the not-yet-existing attributes and are overwritten at once. -/
def HHCell.init : HHCell :=
  let c0 : HHCell :=
    { synlist := [], nclist := [], soma := newSection "", dend := newSection ""
      dendConnects := [], stim := none, soma_v_vec := none, dend_v_vec := none
      t_vec := none, x := none, y := none }
  c0.create_sections.build_topology.define_geometry.define_biophysics

/-- Method `add_current_stim(delay)`: `self.stim = h.IClamp(self.dend(1.0))`
with amp 0.3, dur 1 — the attribute is overwritten on each call. -/
def HHCell.add_current_stim (c : HHCell) (delay : ℚ) : HHCell :=
  { c with stim := some { loc := 1, amp := 0.3, delay := delay, dur := 1 } }

/-- Method `set_recording`: allocate the three recording vectors (empty until
the engine run fills them). -/
def HHCell.set_recording (c : HHCell) : HHCell :=
  { c with soma_v_vec := some [], dend_v_vec := some [], t_vec := some [] }

/-- Method `create_synapse(loc, tau, e)`: append a configured `ExpSyn` on the
dendrite to `synlist` (Python defaults: loc 0.5, tau 2, e 0; call
sites passing no argument use those values). -/
def HHCell.create_synapse (c : HHCell) (loc tau e : ℚ) : HHCell :=
  { c with synlist := c.synlist ++ [{ loc := loc, tau := tau, e := e }] }

/-- Method `connect2pre(preCell, synid, delay, weight)`: resolve
`self.synlist[synid]` by Python indexing (an out-of-range index raises
`IndexError` before any `NetCon` exists), build the `NetCon` watching
`preCell.soma(0.5)._ref_v`, set delay and weight, append it to
`nclist`. -/
def HHCell.connect2pre (c : HHCell) (preCell : HHCell) (synid : ℤ)
    (delay weight : ℚ) : Except PyErr HHCell :=
  match pyGet c.synlist synid with
  | none => .error .indexError
  | some syn =>
    .ok { c with nclist := c.nclist ++
      [{ srcSec := preCell.soma.name, srcPos := 0.5, target := some syn,
         delay := delay, weight := weight }] }

/-- Method `set_position(x, y)`: store the coordinates as attributes. -/
def HHCell.set_position (c : HHCell) (px py : ℚ) : HHCell :=
  { c with x := some px, y := some py }

/-- One plotted line of a matplotlib figure: x data, y data, color,
label. -/
structure FigLine where
  xs : List ℚ
  ys : List ℚ
  color : String
  lbl : String
  deriving DecidableEq

/-- The figure `plot_voltage` builds and returns. -/
structure Fig where
  lines : List FigLine
  xlabel : String
  ylabel : String
  ylim : Option (ℚ × ℚ)
  title : String
  shown : Bool
  deriving DecidableEq

/-- Method `plot_voltage(title, ylim, show)`: plot the recorded soma and
dendrite traces against time and return the figure.  Reading a
recording vector before `set_recording` ran is an `AttributeError`
(the missing-attribute case); the method assigns no cell attribute, so
the cell comes back as it went in. -/
def HHCell.plot_voltage (c : HHCell) (title : String)
    (ylim : Option (ℚ × ℚ)) (sh : Bool) : Except PyErr (Fig × HHCell) :=
  match c.t_vec, c.soma_v_vec, c.dend_v_vec with
  | some t, some sv, some dv =>
    .ok ({ lines := [⟨t, sv, "black", "soma(0.5)"⟩, ⟨t, dv, "red", "dend(0.5)"⟩]
           xlabel := "time (ms)", ylabel := "mV", ylim := ylim
           title := title, shown := sh }, c)
  | _, _, _ => .error .attributeError

/-- The engine run's observable effect on one cell: `h.run()` appends
the engine-computed samples to the vectors bound by `set_recording`
(a cell that never called `set_recording` has no bound vectors and is
untouched). -/
def HHCell.runEngine (c : HHCell) (ts sv dv : List ℚ) : HHCell :=
  { c with t_vec := c.t_vec.map (· ++ ts)
           soma_v_vec := c.soma_v_vec.map (· ++ sv)
           dend_v_vec := c.dend_v_vec.map (· ++ dv) }

/-- The operations the scripts perform on an already-constructed cell
(stimulation, recording, synapse creation, wiring, plotting, the
engine run).  `build_topology` and `set_position` are absent because
no code path invokes them after construction.  An operation whose
translation raises (`connect2pre` on a bad index, `plot_voltage`
before recording) aborts the whole script; for state-preservation
statements the aborted state is taken to be the state at the raise. -/
inductive CellOp where
  | addStim (delay : ℚ)
  | setRec
  | createSyn (loc tau e : ℚ)
  | conn2pre (pre : HHCell) (synid : ℤ) (delay weight : ℚ)
  | plotV (title : String) (ylim : Option (ℚ × ℚ)) (sh : Bool)
  | runEngine (ts sv dv : List ℚ)

/-- Apply one post-construction operation. -/
def applyOp (c : HHCell) : CellOp → HHCell
  | .addStim d => c.add_current_stim d
  | .setRec => c.set_recording
  | .createSyn l t e => c.create_synapse l t e
  | .conn2pre p s d w =>
    match c.connect2pre p s d w with
    | .ok c2 => c2
    | .error _ => c
  | .plotV t yl s =>
    match c.plot_voltage t yl s with
    | .ok r => r.2
    | .error _ => c
  | .runEngine ts sv dv => c.runEngine ts sv dv

/-- Apply a sequence of post-construction operations in order. -/
def applyOps (ops : List CellOp) (c : HHCell) : HHCell :=
  ops.foldl applyOp c

/-- The fixed canvas: `Pop.size = (100, 100)` (width, height). -/
def popSize : ℚ × ℚ := (100, 100)

/-- One draw of `np.random.uniform(lo, hi, n)`: the generator produces a
unit uniform and scales it affinely onto `[lo, hi)`. -/
def npUniform (lo hi u : ℚ) : ℚ := lo + (hi - lo) * u

/-- The spike-logging `h.NetCon(cell.soma(0.5)._ref_v, None, ...)` of
`Pop.create_cells` after `nc.record(self.spkt, self.spkid, i)`:
`src` is the watched cell's creation index, `recId` the id the
recorder writes into the shared spike-id buffer. -/
structure SpikeRec where
  src : ℕ
  recId : ℕ
  deriving DecidableEq

/-- Method `Pop.create_cells(numCells, xNormRange, yNormRange)` against the
unit-uniform stream `u` with the global draw counter at `k`: scale the
normalized ranges by the canvas, draw `numCells` x positions then
`numCells` y positions, and for each index `i` build a cell, enable
recording, create one synapse with the Python defaults
(loc 0.5, tau 2, e 0), set its position, and register the
spike-logging connection with id `i`.  Returns the cell list and the
recorder list. -/
def Pop.create_cells (u : ℕ → ℚ) (k : ℕ) (numCells : ℕ)
    (xNormRange yNormRange : ℚ × ℚ) : List HHCell × List SpikeRec :=
  let xMin := popSize.1 * xNormRange.1
  let xMax := popSize.1 * xNormRange.2
  let xPoss := fun i => npUniform xMin xMax (u (k + i))
  let yMin := popSize.2 * yNormRange.1
  let yMax := popSize.2 * yNormRange.2
  let yPoss := fun i => npUniform yMin yMax (u (k + numCells + i))
  ((List.range numCells).map fun i =>
     ((HHCell.init.set_recording.create_synapse 0.5 2 0).set_position
       (xPoss i) (yPoss i)),
   (List.range numCells).map fun i => { src := i, recId := i })

/-- The `Pop` state: the two shared spike buffers, the member cells in
creation order, and the spike recorders. -/
structure Pop where
  spkt : List ℚ
  spkid : List ℚ
  cells : List HHCell
  spikeRecs : List SpikeRec
  deriving DecidableEq

/-- Constructor `Pop.__init__(numCells, xNormRange, yNormRange)`: fresh empty spike
buffers, then `create_cells`.  Returns the population together with the
advanced global draw counter (`create_cells` consumed `2 * numCells`
draws). -/
def Pop.init (u : ℕ → ℚ) (k : ℕ) (numCells : ℕ)
    (xNormRange yNormRange : ℚ × ℚ) : Pop × ℕ :=
  let cr := Pop.create_cells u k numCells xNormRange yNormRange
  ({ spkt := [], spkid := [], cells := cr.1, spikeRecs := cr.2 },
   k + 2 * numCells)

/-- One recorder's reaction to a threshold-crossing event
`(cellIdx, time)`: a recorder watching that cell appends the time to
`spkt` and its registered id to `spkid`; any other recorder does
nothing. -/
def Pop.deliverStep (e : ℕ × ℚ) (q : Pop) (r : SpikeRec) : Pop :=
  if r.src = e.1 then
    { q with spkt := q.spkt ++ [e.2], spkid := q.spkid ++ [(r.recId : ℚ)] }
  else q

/-- Delivery of one threshold-crossing event during the engine run:
every registered recorder reacts in registration order. -/
def Pop.deliver (p : Pop) (e : ℕ × ℚ) : Pop :=
  p.spikeRecs.foldl (Pop.deliverStep e) p

/-- The engine run's observable effect on a population: the engine's
chronological list of threshold crossings is delivered event by event
to the registered recorders. -/
def Pop.record_spikes (p : Pop) (events : List (ℕ × ℚ)) : Pop :=
  events.foldl Pop.deliver p

/-- The scatter figure `plot_net` builds: canvas bounds and the member
positions read back from the cells (a cell without a position would
read as a missing attribute; population members always have one). -/
structure NetFig where
  xlim : ℚ × ℚ
  ylim : ℚ × ℚ
  xs : List (Option ℚ)
  ys : List (Option ℚ)
  shown : Bool
  deriving DecidableEq

/-- Method `plot_net(show)`: scatter all cell positions on the canvas; the
method assigns nothing, so the population comes back unchanged. -/
def Pop.plot_net (p : Pop) (sh : Bool) : NetFig × Pop :=
  ({ xlim := (0, popSize.1), ylim := (0, popSize.2)
     xs := p.cells.map HHCell.x, ys := p.cells.map HHCell.y, shown := sh }, p)

/-- The raster figure `plot_raster` builds from the shared buffers. -/
structure RasterFig where
  xs : List ℚ
  ys : List ℚ
  color : String
  title : String
  shown : Bool
  deriving DecidableEq

/-- Method `plot_raster(color, show)`: scatter (spike time, spike id); the
method assigns nothing, so the population comes back unchanged. -/
def Pop.plot_raster (p : Pop) (color : String) (sh : Bool) :
    RasterFig × Pop :=
  ({ xs := p.spkt, ys := p.spkid, color := color
     title := "Network raster", shown := sh }, p)

/-! Helper lemmas. -/

/-- Out-of-range characterization of Python list indexing. -/
theorem pyGet_eq_none_iff {α : Type} (xs : List α) (i : ℤ) :
    pyGet xs i = none ↔ ((xs.length : ℤ) ≤ i ∨ i < -(xs.length : ℤ)) := by
  unfold pyGet
  by_cases hneg : i < 0
  · simp only [hneg, if_true]
    by_cases hj : 0 ≤ i + (xs.length : ℤ)
    · simp only [hj, if_true]
      rw [List.get?_eq_none]
      omega
    · simp only [hj, if_false]
      simp only [true_iff]
      omega
  · simp only [hneg, if_false]
    have h0 : 0 ≤ i := le_of_not_lt hneg
    simp only [h0, if_true]
    rw [List.get?_eq_none]
    omega

/-- A Python index of −1 on a non-empty list resolves to the last
element. -/
theorem pyGet_neg_one {α : Type} (xs : List α) (h : xs ≠ []) :
    pyGet xs (-1) = xs.getLast? := by
  have hlen : 1 ≤ xs.length := List.length_pos.mpr h
  unfold pyGet
  have hneg : (-1 : ℤ) < 0 := by omega
  have hj : (0 : ℤ) ≤ -1 + (xs.length : ℤ) := by omega
  simp only [hneg, if_true, hj, if_true]
  rw [List.getLast?_eq_get? xs]
  congr 1
  omega

/-- Every post-construction operation leaves the topology log and the
position attributes unchanged. -/
theorem applyOp_frame (c : HHCell) (op : CellOp) :
    (applyOp c op).dendConnects = c.dendConnects ∧
    (applyOp c op).x = c.x ∧ (applyOp c op).y = c.y := by
  cases op with
  | addStim d => exact ⟨rfl, rfl, rfl⟩
  | setRec => exact ⟨rfl, rfl, rfl⟩
  | createSyn l t e => exact ⟨rfl, rfl, rfl⟩
  | conn2pre p s d w =>
    simp only [applyOp, HHCell.connect2pre]
    cases pyGet c.synlist s <;> exact ⟨rfl, rfl, rfl⟩
  | plotV t yl s =>
    simp only [applyOp, HHCell.plot_voltage]
    cases c.t_vec <;> cases c.soma_v_vec <;> cases c.dend_v_vec <;>
      exact ⟨rfl, rfl, rfl⟩
  | runEngine ts sv dv => exact ⟨rfl, rfl, rfl⟩

/-- Sequences of post-construction operations leave the topology log
and the position attributes unchanged. -/
theorem applyOps_frame (ops : List CellOp) (c : HHCell) :
    (applyOps ops c).dendConnects = c.dendConnects ∧
    (applyOps ops c).x = c.x ∧ (applyOps ops c).y = c.y := by
  induction ops generalizing c with
  | nil => exact ⟨rfl, rfl, rfl⟩
  | cons op ops ih =>
    have h1 := applyOp_frame c op
    have h2 := ih (applyOp c op)
    simp only [applyOps, List.foldl_cons] at *
    exact ⟨h2.1.trans h1.1, h2.2.1.trans h1.2.1, h2.2.2.trans h1.2.2⟩

/-- Reacting to an event never touches a population's cell list or its
recorder registrations. -/
theorem deliverSteps_frame (e : ℕ × ℚ) (recs : List SpikeRec) (q : Pop) :
    (recs.foldl (Pop.deliverStep e) q).cells = q.cells ∧
    (recs.foldl (Pop.deliverStep e) q).spikeRecs = q.spikeRecs := by
  induction recs generalizing q with
  | nil => exact ⟨rfl, rfl⟩
  | cons r recs ih =>
    simp only [List.foldl_cons]
    have h1 : (Pop.deliverStep e q r).cells = q.cells ∧
        (Pop.deliverStep e q r).spikeRecs = q.spikeRecs := by
      unfold Pop.deliverStep
      split <;> exact ⟨rfl, rfl⟩
    have h2 := ih (Pop.deliverStep e q r)
    exact ⟨h2.1.trans h1.1, h2.2.trans h1.2⟩

/-- An engine run's spike logging never touches a population's cell
list or its recorder registrations. -/
theorem record_spikes_frame (p : Pop) (events : List (ℕ × ℚ)) :
    (p.record_spikes events).cells = p.cells ∧
    (p.record_spikes events).spikeRecs = p.spikeRecs := by
  induction events generalizing p with
  | nil => exact ⟨rfl, rfl⟩
  | cons e evs ih =>
    simp only [Pop.record_spikes, List.foldl_cons] at *
    have h1 := deliverSteps_frame e p.spikeRecs p
    have h2 := ih (p.deliver e)
    unfold Pop.deliver at h2
    exact ⟨h2.1.trans h1.1, h2.2.trans h1.2⟩

/-- A uniform draw lies in the sampling interval. -/
theorem npUniform_mem (lo hi u : ℚ) (hlh : lo ≤ hi) (h0 : 0 ≤ u)
    (h1 : u < 1) : lo ≤ npUniform lo hi u ∧ npUniform lo hi u ≤ hi := by
  unfold npUniform
  constructor
  · nlinarith
  · nlinarith

/-- Folding one event's delivery over a recorder list appends one
(time, id) pair per matching recorder, in registration order. -/
theorem deliverSteps_eq (e : ℕ × ℚ) (recs : List SpikeRec) (q : Pop) :
    recs.foldl (Pop.deliverStep e) q =
      { q with
        spkt := q.spkt ++
          (recs.filter (fun r => r.src == e.1)).map (fun _ => e.2)
        spkid := q.spkid ++
          (recs.filter (fun r => r.src == e.1)).map (fun r => (r.recId : ℚ)) } := by
  induction recs generalizing q with
  | nil => simp
  | cons r recs ih =>
    simp only [List.foldl_cons, List.filter_cons]
    by_cases h : r.src = e.1
    · rw [ih (Pop.deliverStep e q r)]
      simp [Pop.deliverStep, h]
    · rw [ih (Pop.deliverStep e q r)]
      have hb : (r.src == e.1) = false := by simp [h]
      simp [Pop.deliverStep, h, hb]

/-- Among the recorders a population registers, the unique recorder
watching cell `i` carries id `i`. -/
theorem filter_diag_range (n i : ℕ) (hi : i < n) :
    ((List.range n).map
      (fun j => ({ src := j, recId := j } : SpikeRec))).filter
        (fun r => r.src == i) = [{ src := i, recId := i }] := by
  induction n with
  | zero => omega
  | succ n ih =>
    rw [List.range_succ, List.map_append, List.filter_append]
    by_cases h : i < n
    · rw [ih h]
      have hne : (n == i) = false := by
        simp only [beq_eq_false_iff_ne, ne_eq]
        omega
      simp [hne]
    · have hin : i = n := by omega
      subst hin
      have hfil : ((List.range i).map
          (fun j => ({ src := j, recId := j } : SpikeRec))).filter
            (fun r => r.src == i) = [] := by
        rw [List.filter_eq_nil]
        intro a ha
        rw [List.mem_map] at ha
        obtain ⟨j, hj, rfl⟩ := ha
        have hlt : j < i := List.mem_range.mp hj
        simp only [beq_eq_false_iff_ne, ne_eq, Bool.not_eq_true, beq_iff_eq]
        omega
      rw [hfil]
      simp

/-- Against a diagonal recorder registration, delivering a list of
in-range crossings appends exactly the event times to `spkt` and the
crossing cells' indices to `spkid`. -/
theorem record_spikes_diag (n : ℕ) (events : List (ℕ × ℚ)) (p : Pop)
    (hrecs : p.spikeRecs =
      (List.range n).map (fun j => { src := j, recId := j }))
    (hev : ∀ e ∈ events, e.1 < n) :
    (p.record_spikes events).spkt = p.spkt ++ events.map Prod.snd ∧
    (p.record_spikes events).spkid =
      p.spkid ++ events.map (fun e => ((e.1 : ℕ) : ℚ)) := by
  induction events generalizing p with
  | nil => simp [Pop.record_spikes]
  | cons e evs ih =>
    have he : e.1 < n := hev e (by simp)
    have hdel : p.deliver e =
        { p with spkt := p.spkt ++ [e.2], spkid := p.spkid ++ [(e.1 : ℚ)] } := by
      unfold Pop.deliver
      rw [hrecs, deliverSteps_eq, filter_diag_range n e.1 he]
      simp
      exact hrecs
    have hrecs2 : (p.deliver e).spikeRecs =
        (List.range n).map (fun j => { src := j, recId := j }) := by
      rw [hdel]
      exact hrecs
    have hih := ih (p.deliver e) hrecs2 (fun x hx => hev x (by simp [hx]))
    have hrec : p.record_spikes (e :: evs) = (p.deliver e).record_spikes evs := by
      simp [Pop.record_spikes]
    constructor
    · rw [hrec, hih.1, hdel]
      simp
    · rw [hrec, hih.2, hdel]
      simp

/-! Claim theorems. -/

/-- C3: after construction, the soma carries the active hh set with
gnabar 0.12, gkbar 0.036, gl 0.0003, el −54.3 and no passive set; the
dendrite carries the passive set with g 0.001, e −65 and no active
set; both compartments have Ra = 100 and cm = 1. -/
theorem C3_biophysics_split :
    HHCell.init.soma.hasHH = true ∧ HHCell.init.soma.hasPas = false ∧
    HHCell.init.soma.gnabar_hh = 0.12 ∧ HHCell.init.soma.gkbar_hh = 0.036 ∧
    HHCell.init.soma.gl_hh = 0.0003 ∧ HHCell.init.soma.el_hh = -54.3 ∧
    HHCell.init.dend.hasPas = true ∧ HHCell.init.dend.hasHH = false ∧
    HHCell.init.dend.g_pas = 0.001 ∧ HHCell.init.dend.e_pas = -65 ∧
    HHCell.init.soma.Ra = 100 ∧ HHCell.init.soma.cm = 1 ∧
    HHCell.init.dend.Ra = 100 ∧ HHCell.init.dend.cm = 1 :=
  ⟨rfl, rfl, rfl, rfl, rfl, rfl, rfl, rfl, rfl, rfl, rfl, rfl, rfl, rfl⟩

/-- C4: after construction the dendrite's 0-end is attached to the soma
at position 1, this is the only attachment ever made, and no
post-construction operation the scripts perform adds another. -/
theorem C4_topology_once (ops : List CellOp) :
    HHCell.init.dendConnects = [{ childPos := 0, parentName := "soma", parentPos := 1 }] ∧
    (applyOps ops HHCell.init).dendConnects =
      [{ childPos := 0, parentName := "soma", parentPos := 1 }] :=
  ⟨rfl, (applyOps_frame ops HHCell.init).1.trans rfl⟩

/-- C5: `add_current_stim d` installs the stimulus with amplitude 0.3,
duration 1, delay `d`, at the dendrite's distal end (position 1), and a
second call overwrites the first, leaving exactly one stimulus with the
last delay. -/
theorem C5_current_stim (c : HHCell) (d d1 d2 : ℚ) :
    (c.add_current_stim d).stim =
      some { loc := 1, amp := 0.3, delay := d, dur := 1 } ∧
    ((c.add_current_stim d1).add_current_stim d2).stim =
      some { loc := 1, amp := 0.3, delay := d2, dur := 1 } :=
  ⟨rfl, rfl⟩

/-- C1: on a cell with exactly one synapse, `connect2pre` with index 0
succeeds and wires the new `NetCon` to that synapse, with index 1 it
raises `IndexError`, and on any cell an index exceeding the synapse
count raises `IndexError`. -/
theorem C1_connect2pre_index (c preCell : HHCell) (d w : ℚ)
    (h1 : c.synlist.length = 1) :
    (∃ syn, c.synlist = [syn] ∧
      c.connect2pre preCell 0 d w = .ok { c with nclist := c.nclist ++
        [{ srcSec := preCell.soma.name, srcPos := 0.5, target := some syn,
           delay := d, weight := w }] }) ∧
    c.connect2pre preCell 1 d w = .error .indexError ∧
    (∀ synid : ℤ, (c.synlist.length : ℤ) < synid →
      c.connect2pre preCell synid d w = .error .indexError) := by
  obtain ⟨syn, hsyn⟩ := List.length_eq_one.mp h1
  refine ⟨⟨syn, hsyn, ?_⟩, ?_, ?_⟩
  · simp [HHCell.connect2pre, hsyn, pyGet]
  · simp [HHCell.connect2pre, hsyn, pyGet]
  · intro synid hgt
    have hnone : pyGet c.synlist synid = none :=
      (pyGet_eq_none_iff c.synlist synid).mpr (Or.inl (le_of_lt hgt))
    simp [HHCell.connect2pre, hnone]

/-- C1 witness: a freshly built cell with one synapse. -/
theorem C1_connect2pre_index_witness :
    ((HHCell.init.create_synapse 0.5 2 0).synlist.length = 1) ∧
    ((∃ syn, (HHCell.init.create_synapse 0.5 2 0).synlist = [syn] ∧
      (HHCell.init.create_synapse 0.5 2 0).connect2pre HHCell.init 0 2 1 =
        .ok { HHCell.init.create_synapse 0.5 2 0 with
              nclist := (HHCell.init.create_synapse 0.5 2 0).nclist ++
                [{ srcSec := HHCell.init.soma.name, srcPos := 0.5,
                   target := some syn, delay := 2, weight := 1 }] }) ∧
    (HHCell.init.create_synapse 0.5 2 0).connect2pre HHCell.init 1 2 1 =
      .error .indexError ∧
    (∀ synid : ℤ,
      (((HHCell.init.create_synapse 0.5 2 0).synlist.length : ℤ) < synid →
      (HHCell.init.create_synapse 0.5 2 0).connect2pre HHCell.init synid 2 1 =
        .error .indexError))) :=
  ⟨rfl, C1_connect2pre_index (HHCell.init.create_synapse 0.5 2 0) HHCell.init 2 1 rfl⟩

/-- C10: on a cell with a non-empty synapse list, `connect2pre` with
index −1 succeeds and wires the connection to the most recently created
synapse (Python negative indexing), and `IndexError` occurs exactly
when the index is at least the synapse count or below minus the
count. -/
theorem C10_connect2pre_negative (c preCell : HHCell) (d w : ℚ)
    (h : c.synlist ≠ []) :
    (∃ syn, c.synlist.getLast? = some syn ∧
      c.connect2pre preCell (-1) d w = .ok { c with nclist := c.nclist ++
        [{ srcSec := preCell.soma.name, srcPos := 0.5, target := some syn,
           delay := d, weight := w }] }) ∧
    (∀ synid : ℤ, c.connect2pre preCell synid d w = .error .indexError ↔
      ((c.synlist.length : ℤ) ≤ synid ∨ synid < -(c.synlist.length : ℤ))) := by
  constructor
  · obtain ⟨syn, hlast⟩ := Option.isSome_iff_exists.mp
      (List.getLast?_isSome.mpr h)
    refine ⟨syn, hlast, ?_⟩
    have hres : pyGet c.synlist (-1) = some syn := by
      rw [pyGet_neg_one c.synlist h, hlast]
    simp [HHCell.connect2pre, hres]
  · intro synid
    rw [← pyGet_eq_none_iff c.synlist synid]
    cases hpg : pyGet c.synlist synid <;>
      simp [HHCell.connect2pre, hpg]

/-- C10 witness: a freshly built cell with one synapse, wired by
index −1. -/
theorem C10_connect2pre_negative_witness :
    ((HHCell.init.create_synapse 0.5 2 0).synlist ≠ []) ∧
    ((∃ syn, (HHCell.init.create_synapse 0.5 2 0).synlist.getLast? = some syn ∧
      (HHCell.init.create_synapse 0.5 2 0).connect2pre HHCell.init (-1) 2 1 =
        .ok { HHCell.init.create_synapse 0.5 2 0 with
              nclist := (HHCell.init.create_synapse 0.5 2 0).nclist ++
                [{ srcSec := HHCell.init.soma.name, srcPos := 0.5,
                   target := some syn, delay := 2, weight := 1 }] }) ∧
    (∀ synid : ℤ,
      (HHCell.init.create_synapse 0.5 2 0).connect2pre HHCell.init synid 2 1 =
          .error .indexError ↔
        ((((HHCell.init.create_synapse 0.5 2 0).synlist.length : ℤ) ≤ synid) ∨
          synid < -(((HHCell.init.create_synapse 0.5 2 0).synlist.length : ℤ))))) :=
  ⟨List.cons_ne_nil _ _,
   C10_connect2pre_negative (HHCell.init.create_synapse 0.5 2 0) HHCell.init 2 1
     (List.cons_ne_nil _ _)⟩

/-- A one-cell population over the all-zeros unit-uniform stream, used
as the concrete instance for C7. -/
def c7pop : Pop := (Pop.init (fun _ => 0) 0 1 (0, 1) (0, 1)).1

/-- C7 counterexample: in a population built by the source code, the
single synapse of a member cell has reversal potential 0 — not the
passive reversal value −65 the claim states. -/
theorem C7_counterexample :
    c7pop.cells.map (fun c => c.synlist.map Synapse.e) = [[0]] ∧
    (0 : ℚ) ≠ -65 :=
  ⟨rfl, by decide⟩

/-- C7 (amended): every member cell of a population is created with
exactly one synapse, whose parameters are the `create_synapse` Python
defaults — location 0.5, tau 2, reversal potential 0 (the excitatory
default), not the dendrite's passive reversal −65. -/
theorem C7_one_synapse (u : ℕ → ℚ) (k numCells : ℕ) (xNR yNR : ℚ × ℚ)
    (c : HHCell) (hc : c ∈ (Pop.init u k numCells xNR yNR).1.cells) :
    c.synlist = [{ loc := 0.5, tau := 2, e := 0 }] := by
  simp only [Pop.init, Pop.create_cells] at hc
  rw [List.mem_map] at hc
  obtain ⟨i, _, rfl⟩ := hc
  rfl

/-- C7 witness: the single member of the concrete one-cell
population. -/
theorem C7_one_synapse_witness :
    ((HHCell.init.set_recording.create_synapse 0.5 2 0).set_position
        (npUniform (popSize.1 * (0, 1).1) (popSize.1 * (0, 1).2) 0)
        (npUniform (popSize.2 * (0, 1).1) (popSize.2 * (0, 1).2) 0)
      ∈ (Pop.init (fun _ => 0) 0 1 (0, 1) (0, 1)).1.cells) ∧
    ((HHCell.init.set_recording.create_synapse 0.5 2 0).set_position
        (npUniform (popSize.1 * (0, 1).1) (popSize.1 * (0, 1).2) 0)
        (npUniform (popSize.2 * (0, 1).1) (popSize.2 * (0, 1).2) 0)).synlist =
      [{ loc := 0.5, tau := 2, e := 0 }] :=
  ⟨List.mem_singleton_self _,
   C7_one_synapse (fun _ => 0) 0 1 (0, 1) (0, 1) _ (List.mem_singleton_self _)⟩

/-- C9: whenever `plot_voltage` returns, the cell it hands back is the
cell it was called on (no model state is mutated), and the returned
figure is exactly the two recorded traces plotted against time with the
given title, y-limits and show flag. -/
theorem C9_plot_voltage_frame (c : HHCell) (title : String)
    (ylim : Option (ℚ × ℚ)) (sh : Bool) (fig : Fig) (c2 : HHCell)
    (h : c.plot_voltage title ylim sh = .ok (fig, c2)) :
    c2 = c ∧ ∃ t sv dv, c.t_vec = some t ∧ c.soma_v_vec = some sv ∧
      c.dend_v_vec = some dv ∧
      fig = { lines := [⟨t, sv, "black", "soma(0.5)"⟩, ⟨t, dv, "red", "dend(0.5)"⟩]
              xlabel := "time (ms)", ylabel := "mV", ylim := ylim
              title := title, shown := sh } := by
  unfold HHCell.plot_voltage at h
  cases ht : c.t_vec with
  | none => rw [ht] at h; cases h
  | some t =>
    cases hs : c.soma_v_vec with
    | none => rw [ht, hs] at h; cases h
    | some sv =>
      cases hd : c.dend_v_vec with
      | none => rw [ht, hs, hd] at h; cases h
      | some dv =>
        rw [ht, hs, hd] at h
        simp only [Except.ok.injEq, Prod.mk.injEq] at h
        exact ⟨h.2.symm, t, sv, dv, rfl, rfl, rfl, h.1.symm⟩

/-- C9 witness: a cell with recording enabled, plotted with the Python
default arguments. -/
theorem C9_plot_voltage_frame_witness :
    (HHCell.init.set_recording.plot_voltage "Cell voltage" none false =
      .ok ({ lines := [⟨[], [], "black", "soma(0.5)"⟩, ⟨[], [], "red", "dend(0.5)"⟩]
             xlabel := "time (ms)", ylabel := "mV", ylim := none
             title := "Cell voltage", shown := false }, HHCell.init.set_recording)) ∧
    (HHCell.init.set_recording = HHCell.init.set_recording ∧
      ∃ t sv dv, HHCell.init.set_recording.t_vec = some t ∧
        HHCell.init.set_recording.soma_v_vec = some sv ∧
        HHCell.init.set_recording.dend_v_vec = some dv ∧
        ({ lines := [⟨[], [], "black", "soma(0.5)"⟩, ⟨[], [], "red", "dend(0.5)"⟩]
           xlabel := "time (ms)", ylabel := "mV", ylim := none
           title := "Cell voltage", shown := false } : Fig) =
          { lines := [⟨t, sv, "black", "soma(0.5)"⟩, ⟨t, dv, "red", "dend(0.5)"⟩]
            xlabel := "time (ms)", ylabel := "mV", ylim := none
            title := "Cell voltage", shown := false }) :=
  ⟨rfl, C9_plot_voltage_frame HHCell.init.set_recording "Cell voltage" none false
    _ _ rfl⟩

/-- C8: a member cell's position is exactly the pair of uniform draws
assigned at creation, no sequence of post-construction cell operations
changes it, and the population-level operations (spike logging during
the run, `plot_net`, `plot_raster`) leave every cell untouched. -/
theorem C8_position_immutable (u : ℕ → ℚ) (k numCells : ℕ)
    (xNR yNR : ℚ × ℚ) (i : ℕ) (c : HHCell)
    (hc : (Pop.init u k numCells xNR yNR).1.cells.get? i = some c) :
    (c.x = some (npUniform (popSize.1 * xNR.1) (popSize.1 * xNR.2) (u (k + i))) ∧
     c.y = some (npUniform (popSize.2 * yNR.1) (popSize.2 * yNR.2)
       (u (k + numCells + i)))) ∧
    (∀ ops : List CellOp,
      (applyOps ops c).x = c.x ∧ (applyOps ops c).y = c.y) ∧
    ((∀ events : List (ℕ × ℚ),
       ((Pop.init u k numCells xNR yNR).1.record_spikes events).cells =
         (Pop.init u k numCells xNR yNR).1.cells) ∧
     (∀ sh, ((Pop.init u k numCells xNR yNR).1.plot_net sh).2 =
        (Pop.init u k numCells xNR yNR).1) ∧
     (∀ color sh, ((Pop.init u k numCells xNR yNR).1.plot_raster color sh).2 =
        (Pop.init u k numCells xNR yNR).1)) := by
  refine ⟨?_,
    fun ops => ⟨(applyOps_frame ops c).2.1, (applyOps_frame ops c).2.2⟩,
    fun events => (record_spikes_frame _ events).1,
    fun sh => rfl, fun color sh => rfl⟩
  simp only [Pop.init, Pop.create_cells] at hc
  rw [List.get?_map] at hc
  cases hr : (List.range numCells).get? i with
  | none => rw [hr] at hc; cases hc
  | some j =>
    have hi : i < numCells := by
      have := List.get?_eq_some.mp hr
      have hlen := this.1
      simpa using hlen
    rw [List.get?_range hi] at hr
    injection hr with hji
    rw [List.get?_range hi] at hc
    injection hc with hfc
    rw [← hfc]
    exact ⟨rfl, rfl⟩

/-- The single member of a concrete one-cell population, the C8 witness
instance. -/
def c8cell : HHCell :=
  (HHCell.init.set_recording.create_synapse 0.5 2 0).set_position
    (npUniform (popSize.1 * 0) (popSize.1 * 1) 0)
    (npUniform (popSize.2 * 0) (popSize.2 * 1) 0)

/-- C8 witness: the one-cell population over the all-zeros stream. -/
theorem C8_position_immutable_witness :
    ((Pop.init (fun _ => 0) 0 1 (0, 1) (0, 1)).1.cells.get? 0 = some c8cell) ∧
    ((c8cell.x = some (npUniform (popSize.1 * 0) (popSize.1 * 1) 0) ∧
      c8cell.y = some (npUniform (popSize.2 * 0) (popSize.2 * 1) 0)) ∧
     (∀ ops : List CellOp,
       (applyOps ops c8cell).x = c8cell.x ∧ (applyOps ops c8cell).y = c8cell.y) ∧
     ((∀ events : List (ℕ × ℚ),
        ((Pop.init (fun _ => 0) 0 1 (0, 1) (0, 1)).1.record_spikes events).cells =
          (Pop.init (fun _ => 0) 0 1 (0, 1) (0, 1)).1.cells) ∧
      (∀ sh, ((Pop.init (fun _ => 0) 0 1 (0, 1) (0, 1)).1.plot_net sh).2 =
         (Pop.init (fun _ => 0) 0 1 (0, 1) (0, 1)).1) ∧
      (∀ color sh,
        ((Pop.init (fun _ => 0) 0 1 (0, 1) (0, 1)).1.plot_raster color sh).2 =
          (Pop.init (fun _ => 0) 0 1 (0, 1) (0, 1)).1))) :=
  ⟨rfl, C8_position_immutable (fun _ => 0) 0 1 (0, 1) (0, 1) 0 c8cell rfl⟩

/-- C2: a population built as `Pop(100, yNormRange=[0.2, 1])` from the
seeded generator's unit-uniform stream has exactly 100 cells, every
cell's x-coordinate in [0, 100] and y-coordinate in [20, 100], and two
runs whose seeded streams agree produce identical populations. -/
theorem C2_population_seeded (u : ℕ → ℚ) (hu : ∀ i, 0 ≤ u i ∧ u i < 1) :
    ((Pop.init u 0 100 (0, 1) (0.2, 1)).1.cells.length = 100) ∧
    (∀ c ∈ (Pop.init u 0 100 (0, 1) (0.2, 1)).1.cells, ∃ cx cy,
      c.x = some cx ∧ c.y = some cy ∧
      0 ≤ cx ∧ cx ≤ 100 ∧ 20 ≤ cy ∧ cy ≤ 100) ∧
    (∀ v : ℕ → ℚ, (∀ i, u i = v i) →
      Pop.init u 0 100 (0, 1) (0.2, 1) = Pop.init v 0 100 (0, 1) (0.2, 1)) := by
  refine ⟨?_, ?_, ?_⟩
  · simp [Pop.init, Pop.create_cells]
  · intro c hc
    simp only [Pop.init, Pop.create_cells] at hc
    rw [List.mem_map] at hc
    obtain ⟨i, hi, rfl⟩ := hc
    refine ⟨_, _, rfl, rfl, ?_, ?_, ?_, ?_⟩
    · have hx := npUniform_mem (popSize.1 * (0, 1).1) (popSize.1 * (0, 1).2)
        (u (0 + i)) (by norm_num [popSize]) (hu (0 + i)).1 (hu (0 + i)).2
      have e1 : popSize.1 * ((0 : ℚ), (1 : ℚ)).1 = 0 := by norm_num [popSize]
      linarith [hx.1]
    · have hx := npUniform_mem (popSize.1 * (0, 1).1) (popSize.1 * (0, 1).2)
        (u (0 + i)) (by norm_num [popSize]) (hu (0 + i)).1 (hu (0 + i)).2
      have e2 : popSize.1 * ((0 : ℚ), (1 : ℚ)).2 = 100 := by norm_num [popSize]
      linarith [hx.2]
    · have hy := npUniform_mem (popSize.2 * ((0.2 : ℚ), (1 : ℚ)).1)
        (popSize.2 * ((0.2 : ℚ), (1 : ℚ)).2) (u (0 + 100 + i))
        (by norm_num [popSize]) (hu (0 + 100 + i)).1 (hu (0 + 100 + i)).2
      have e3 : popSize.2 * ((0.2 : ℚ), (1 : ℚ)).1 = 20 := by norm_num [popSize]
      linarith [hy.1]
    · have hy := npUniform_mem (popSize.2 * ((0.2 : ℚ), (1 : ℚ)).1)
        (popSize.2 * ((0.2 : ℚ), (1 : ℚ)).2) (u (0 + 100 + i))
        (by norm_num [popSize]) (hu (0 + 100 + i)).1 (hu (0 + 100 + i)).2
      have e4 : popSize.2 * ((0.2 : ℚ), (1 : ℚ)).2 = 100 := by norm_num [popSize]
      linarith [hy.2]
  · intro v hv
    have huv : u = v := funext hv
    rw [huv]

/-- C2 witness: the all-zeros unit-uniform stream. -/
theorem C2_population_seeded_witness :
    (∀ i : ℕ, 0 ≤ (fun _ => (0 : ℚ)) i ∧ (fun _ => (0 : ℚ)) i < 1) ∧
    (((Pop.init (fun _ => 0) 0 100 (0, 1) (0.2, 1)).1.cells.length = 100) ∧
     (∀ c ∈ (Pop.init (fun _ => 0) 0 100 (0, 1) (0.2, 1)).1.cells, ∃ cx cy,
       c.x = some cx ∧ c.y = some cy ∧
       0 ≤ cx ∧ cx ≤ 100 ∧ 20 ≤ cy ∧ cy ≤ 100) ∧
     (∀ v : ℕ → ℚ, (∀ i, (fun _ => (0 : ℚ)) i = v i) →
       Pop.init (fun _ => 0) 0 100 (0, 1) (0.2, 1) =
         Pop.init v 0 100 (0, 1) (0.2, 1))) :=
  ⟨fun _ => ⟨le_refl 0, show (0 : ℚ) < 1 by decide⟩,
   C2_population_seeded (fun _ => 0)
     (fun _ => ⟨le_refl 0, show (0 : ℚ) < 1 by decide⟩)⟩

/-- C6: every registered spike recorder of a population carries the id
equal to the watched cell's creation index, and delivering any in-range
list of threshold crossings writes exactly the crossing times into
`spkt` and the crossing cells' creation indices into `spkid`. -/
theorem C6_spike_id_eq_index (u : ℕ → ℚ) (k numCells : ℕ)
    (xNR yNR : ℚ × ℚ) (events : List (ℕ × ℚ))
    (hev : ∀ e ∈ events, e.1 < numCells) :
    (∀ i, i < numCells →
      (Pop.init u k numCells xNR yNR).1.spikeRecs.get? i =
        some { src := i, recId := i }) ∧
    ((Pop.init u k numCells xNR yNR).1.record_spikes events).spkt =
      events.map Prod.snd ∧
    ((Pop.init u k numCells xNR yNR).1.record_spikes events).spkid =
      events.map (fun e => ((e.1 : ℕ) : ℚ)) := by
  refine ⟨?_, ?_⟩
  · intro i hi
    simp only [Pop.init, Pop.create_cells]
    rw [List.get?_map, List.get?_range hi]
    rfl
  · have h := record_spikes_diag numCells events
      (Pop.init u k numCells xNR yNR).1 rfl hev
    simpa using h

/-- C6 witness: a one-cell population receiving one crossing of cell 0
at time 5. -/
theorem C6_spike_id_eq_index_witness :
    (∀ e ∈ [((0 : ℕ), (5 : ℚ))], e.1 < 1) ∧
    ((∀ i, i < 1 →
       (Pop.init (fun _ => 0) 0 1 (0, 1) (0, 1)).1.spikeRecs.get? i =
         some { src := i, recId := i }) ∧
     ((Pop.init (fun _ => 0) 0 1 (0, 1) (0, 1)).1.record_spikes
        [((0 : ℕ), (5 : ℚ))]).spkt = [((0 : ℕ), (5 : ℚ))].map Prod.snd ∧
     ((Pop.init (fun _ => 0) 0 1 (0, 1) (0, 1)).1.record_spikes
        [((0 : ℕ), (5 : ℚ))]).spkid =
       [((0 : ℕ), (5 : ℚ))].map (fun e => ((e.1 : ℕ) : ℚ))) :=
  ⟨by decide,
   C6_spike_id_eq_index (fun _ => 0) 0 1 (0, 1) (0, 1)
     [((0 : ℕ), (5 : ℚ))] (by decide)⟩

end VbraginNeuron
